import Mathlib

/-!
Shallow embedding of `rep/estimators/theanets.py` (class `TheanetsClassifier`)
and proofs about the claims of its specification.

Python values that the adapter stores or routes are modelled by `PyVal`;
Python strings (`set_params` keys, dict keys) by `List Char`, so that
`str.partition`, slicing and `int()` can be modelled character by character.
Errors raised by the adapter are modelled by `PyErr`; a raising method returns
`Except PyErr _`.  Machine floats never enter any claim: feature values are
modelled as `Rat` (the claims only observe shapes, schedules and error kinds,
never floating-point results).

External collaborators (the `theanets` library, sklearn's `Imputer` and
`MinMaxScaler`, and the estimator family's shared `check_inputs` and
`_get_train_features`, which are repository code not staged under `src/`)
are modelled from the spec where marked.
-/

set_option autoImplicit false
set_option maxRecDepth 40000

unseal Rat.mul Rat.add Rat.sub Rat.inv

deriving instance DecidableEq for Except

namespace Theanets

/-- A Python string, character by character. -/
abbrev PyStr := List Char

/-- The Python values the adapter stores and routes: hyperparameter values,
network options, trainer-stage parameters. -/
inductive PyVal where
  | pynone : PyVal
  | int (i : Int) : PyVal
  | num (q : Rat) : PyVal
  | str (s : String) : PyVal
  | intList (l : List Int) : PyVal
  | strList (l : List String) : PyVal
  deriving DecidableEq

/-- One trainer-schedule stage: a Python dict of training-algorithm
parameters, insertion-ordered. -/
abbrev Stage := List (PyStr × PyVal)

/-- Python dict lookup (`d[k]` / `k in d`): first matching key. -/
def dictLookup (d : List (PyStr × PyVal)) (k : PyStr) : Option PyVal :=
  (d.find? (fun kv => kv.1 == k)).map (fun kv => kv.2)

/-- Python dict assignment `d[k] = v`: overwrites in place when the key is
present, appends otherwise (insertion order preserved). -/
def dictSet : List (PyStr × PyVal) → PyStr → PyVal → List (PyStr × PyVal)
  | [], k, v => [(k, v)]
  | (k0, v0) :: rest, k, v =>
    if k0 = k then (k0, v) :: rest else (k0, v0) :: dictSet rest k v

/-- The errors the adapter can raise.  `attributeError` is the spec's
InvalidParameter (it carries the message, which names the offending key);
`notImplementedError` is the spec's NotSupported; `assertionError` is the
spec's NotFitted (a failed `assert`); `valueError` is what `int()` raises on
a non-numeric string; `indexError` is an out-of-range list index;
`validationError` stands for whatever the shared validation routine raises. -/
inductive PyErr where
  | attributeError (msg : PyStr) : PyErr
  | valueError : PyErr
  | indexError : PyErr
  | notImplementedError : PyErr
  | assertionError : PyErr
  | validationError : PyErr
  deriving DecidableEq

/-- A pandas DataFrame: named columns of numeric values. -/
structure DataFrame where
  cols : List (String × List Rat)
  deriving DecidableEq

/-- Modelled from the spec: the shared validation routine `check_inputs`
(external collaborator, `rep.estimators.utils`): checks X/y shape and type
consistency — every column as long as `y`, no duplicate feature names — and
returns the normalized `(X, y, sample_weight)` unchanged. -/
def check_inputs (X : DataFrame) (y : List Int) (sample_weight : Option (List Rat)) :
    Except PyErr (DataFrame × List Int × Option (List Rat)) :=
  if (X.cols.all (fun c => c.2.length = y.length)) ∧ (X.cols.map (fun c => c.1)).Nodup then
    .ok (X, y, sample_weight)
  else
    .error .validationError

/-- Modelled from the spec: `Classifier._get_train_features` (base class,
repository code not staged under `src/`): selects the configured feature
columns, all columns when no feature list was given. -/
def getTrainFeatures (features : Option (List String)) (X : DataFrame) : List (List Rat) :=
  match features with
  | none => X.cols.map (fun c => c.2)
  | some fs => fs.filterMap (fun f => (X.cols.find? (fun c => c.1 == f)).map (fun c => c.2))

/-- Least element of a column (0 for an empty one). -/
def listMin : List Rat → Rat
  | [] => 0
  | x :: xs => xs.foldl min x

/-- Greatest element of a column (0 for an empty one). -/
def listMax : List Rat → Rat
  | [] => 0
  | x :: xs => xs.foldl max x

/-- Modelled from the spec: sklearn's `MinMaxScaler().fit_transform` on one
column — rescales to the unit range using this batch's own minimum and
maximum (a constant column is shifted to zero). -/
def minmaxScale (c : List Rat) : List Rat :=
  let mn := listMin c
  let mx := listMax c
  if mx = mn then c.map (fun x => x - mn) else c.map (fun x => (x - mn) / (mx - mn))

/-- The adapter's `_transform_data`: feature selection, then imputation, then
min-max scaling, all recomputed from this batch alone.  Over `Rat` no value
is missing, so the `Imputer` step is the identity; the result is kept as a
list of columns, whose length is the transformed data's `shape[1]`. -/
def transformData (features : Option (List String)) (X : DataFrame) : List (List Rat) :=
  (getTrainFeatures features X).map minmaxScale

/-- Insert into a sorted list of labels. -/
def insertSorted (x : Int) : List Int → List Int
  | [] => [x]
  | y :: ys => if x ≤ y then x :: y :: ys else y :: insertSorted x ys

/-- Sort a label vector ascending. -/
def sortInts (l : List Int) : List Int :=
  l.foldr insertSorted []

/-- `numpy.unique`: the sorted distinct values of a label vector. -/
def npUnique (y : List Int) : List Int :=
  (sortInts y).dedup

/-- One recorded call of the external training algorithm: the transformed
features, the integer labels and the stage parameters it was given. -/
structure TrainCall where
  xdata : List (List Rat)
  ydata : List Int
  trainer : Stage
  deriving DecidableEq

/-- Modelled from the spec: the external library's trained-network handle
(`theanets.Experiment`), constructed from a full layer sequence and the
network options; its training history stands for the accumulated trained
state. -/
structure Experiment where
  layers : List Int
  net_params : Stage
  history : List TrainCall
  deriving DecidableEq

/-- Modelled from the spec: `exp.train(data, **trainer)` applies one training
stage to the handle's state. -/
def Experiment.train (e : Experiment) (x : List (List Rat)) (y : List Int) (tr : Stage) :
    Experiment :=
  { e with history := e.history ++ [⟨x, y, tr⟩] }

/-- Modelled from the spec: the byte blob `exp.save` writes is opaque and the
library guarantees a faithful round-trip through `save`/`load` of the same
version, so a blob is identified with the persisted handle state. -/
abbrev ExpBlob := Experiment

/-- Modelled from the spec: `exp.save(path)` persists the handle's state. -/
def Experiment.save (e : Experiment) : ExpBlob := e

/-- Modelled from the spec: `exp.load(path)` on a freshly constructed handle
restores the persisted state, superseding the fresh network (the library's
round-trip guarantee). -/
def Experiment.load (_fresh : Experiment) (b : ExpBlob) : Experiment := b

/-- Modelled from the spec: `exp.network.predict` — an opaque deterministic
function of the handle and the transformed input; only its determinism
matters to the claims, the concrete value is a stand-in. -/
def networkPredict (e : Experiment) (x : List (List Rat)) : List (List Rat) :=
  x.map (fun c => (e.layers.map (fun w => (w : Rat))) ++ c)

/-- The adapter's state: the `__dict__` of a `TheanetsClassifier` instance.
`classes_` is `none` while the attribute does not yet exist (before the
first training call). -/
structure TheanetsClassifier where
  layers : List Int
  input_layer : Int
  output_layer : Int
  network_params : Stage
  trainers : List Stage
  exp : Option Experiment
  features : Option (List String)
  classes_ : Option (List Int)
  deriving DecidableEq

namespace TheanetsClassifier

/-- `TheanetsClassifier.__init__`, argument for argument: builds
`network_params` from the eight network-option keyword arguments, defaults
`trainers` to one stage with empty parameters, starts with no trained
handle. -/
def init (layers : List Int) (input_layer output_layer : Int)
    (hidden_activation output_activation : String) (rng : PyVal)
    (input_noise hidden_noise input_dropouts hidden_dropouts decode_from : PyVal)
    (features : Option (List String)) (trainers : Option (List Stage)) :
    TheanetsClassifier :=
  { layers := layers
    input_layer := input_layer
    output_layer := output_layer
    network_params :=
      [("hidden_activation".toList, PyVal.str hidden_activation),
       ("output_activation".toList, PyVal.str output_activation),
       ("rng".toList, rng),
       ("input_noise".toList, input_noise),
       ("hidden_noise".toList, hidden_noise),
       ("input_dropouts".toList, input_dropouts),
       ("hidden_dropouts".toList, hidden_dropouts),
       ("decode_from".toList, decode_from)]
    trainers := trainers.getD [[]]
    exp := none
    features := features
    classes_ := none }

end TheanetsClassifier

/-- The constructor with every argument at its Python default. -/
def theanetsDefault : TheanetsClassifier :=
  TheanetsClassifier.init [10] (-1) (-1) "logistic" "linear" PyVal.pynone
    (PyVal.int 0) (PyVal.int 0) (PyVal.int 0) (PyVal.int 0) (PyVal.int 1) none none

namespace TheanetsClassifier

/-- `_check_fitted`: asserts that a trained handle exists. -/
def check_fitted (self : TheanetsClassifier) : Except PyErr Unit :=
  if self.exp.isSome then .ok () else .error .assertionError

/-- The body of `partial_fit` past the `sample_weight` guard and the input
validation, line for line: transform the batch, record `classes_`, lazily
construct the handle (resolving the `-1` sentinels into the stored
`input_layer`/`output_layer` attributes), append the stage when
`new_trainer`, and run one training stage. -/
def partialFitBody (self : TheanetsClassifier) (X : DataFrame) (y : List Int)
    (new_trainer : Bool) (trainer : Stage) : TheanetsClassifier :=
  let Xt := transformData self.features X
  let s1 : TheanetsClassifier := { self with classes_ := some (npUnique y) }
  let s2 : TheanetsClassifier :=
    if s1.exp.isNone then
      let il := if s1.input_layer = -1 then ((transformData s1.features X).length : Int)
                else s1.input_layer
      let ol := if s1.output_layer = -1 then ((npUnique y).length : Int) else s1.output_layer
      { s1 with input_layer := il, output_layer := ol,
                exp := some ⟨[il] ++ s1.layers ++ [ol], s1.network_params, []⟩ }
    else s1
  let s3 : TheanetsClassifier :=
    if new_trainer then { s2 with trainers := s2.trainers ++ [trainer] } else s2
  { s3 with exp := s3.exp.map (fun e => e.train Xt y trainer) }

/-- `partial_fit(X, y, sample_weight, new_trainer, **trainer)`: rejects a
non-`None` `sample_weight`, validates the inputs, then runs
`partialFitBody`.  Returning the updated adapter models `return self`. -/
def partial_fit (self : TheanetsClassifier) (X : DataFrame) (y : List Int)
    (sample_weight : Option (List Rat)) (new_trainer : Bool) (trainer : Stage) :
    Except PyErr TheanetsClassifier :=
  if sample_weight.isSome then
    .error .notImplementedError
  else
    match check_inputs X y none with
    | .error e => .error e
    | .ok (X1, y1, _) => .ok (partialFitBody self X1 y1 new_trainer trainer)

/-- `fit(X, y, sample_weight)`: discards the handle, then replays the
trainer schedule through `partial_fit` with `new_trainer=False`.  Note that,
as in the source, `sample_weight` is not passed on to `partial_fit`. -/
def fit (self : TheanetsClassifier) (X : DataFrame) (y : List Int)
    (sample_weight : Option (List Rat)) : Except PyErr TheanetsClassifier :=
  let s0 : TheanetsClassifier := { self with exp := none }
  s0.trainers.foldlM (fun acc tr => acc.partial_fit X y none false tr) s0

/-- `predict_proba(X)`: requires a trained handle, transforms the batch and
delegates to the network. -/
def predict_proba (self : TheanetsClassifier) (X : DataFrame) :
    Except PyErr (List (List Rat)) := do
  self.check_fitted
  match self.exp with
  | none => .error .assertionError
  | some e => .ok (networkPredict e (transformData self.features X))

/-- `staged_predict_proba(X)`: always unsupported. -/
def staged_predict_proba (_self : TheanetsClassifier) (_X : DataFrame) :
    Except PyErr (List (List (List Rat))) :=
  .error .notImplementedError

end TheanetsClassifier

/-- The dictionary `__getstate__` produces: the instance `__dict__` minus
`exp`, plus `dumped_exp` — `None` for an untrained adapter (the snapshot
tagged "empty"), otherwise the byte blob read back from the temporary file
`exp.save` wrote. -/
structure PickleState where
  layers : List Int
  input_layer : Int
  output_layer : Int
  network_params : Stage
  trainers : List Stage
  features : Option (List String)
  classes_ : Option (List Int)
  dumped_exp : Option ExpBlob
  deriving DecidableEq

namespace TheanetsClassifier

/-- `__getstate__`: copy the `__dict__`, drop `exp`, add `dumped_exp`. -/
def getstate (self : TheanetsClassifier) : PickleState :=
  { layers := self.layers
    input_layer := self.input_layer
    output_layer := self.output_layer
    network_params := self.network_params
    trainers := self.trainers
    features := self.features
    classes_ := self.classes_
    dumped_exp := self.exp.map Experiment.save }

/-- `__setstate__`: restore the configuration fields; when the snapshot's
blob is not `None`, construct a fresh handle from the stored full layer
sequence and network options, and load the persisted state into it. -/
def setstate (d : PickleState) : TheanetsClassifier :=
  { layers := d.layers
    input_layer := d.input_layer
    output_layer := d.output_layer
    network_params := d.network_params
    trainers := d.trainers
    features := d.features
    classes_ := d.classes_
    exp := d.dumped_exp.map (fun blob =>
      Experiment.load
        ⟨[d.input_layer] ++ d.layers ++ [d.output_layer], d.network_params, []⟩ blob) }

end TheanetsClassifier

/-- Python's `key.partition(sep)`: the text before the first separator, and
`some` of the text after it when the separator occurs (`(key, '', '')`, i.e.
`none`, otherwise). -/
def pyPartition (sep : Char) : PyStr → PyStr × Option PyStr
  | [] => ([], none)
  | c :: cs =>
    if c = sep then ([], some cs)
    else
      let p := pyPartition sep cs
      (c :: p.1, p.2)

/-- The numeric value of a non-empty all-digit string, `none` otherwise. -/
def digitsNat (l : PyStr) : Option Nat :=
  if l ≠ [] ∧ l.all Char.isDigit then
    some (l.foldl (fun acc c => acc * 10 + (c.toNat - 48)) 0)
  else none

/-- Python's `int(s)` on the strings the adapter can feed it: an optional
sign followed by digits parses, anything else (the empty string included)
raises ValueError. -/
def pyInt : PyStr → Option Int
  | [] => none
  | c :: cs =>
    if c = '-' then (digitsNat cs).map (fun n => -(n : Int))
    else if c = '+' then (digitsNat cs).map (fun n => (n : Int))
    else (digitsNat (c :: cs)).map (fun n => (n : Int))

/-- Python list indexing `l[i]` as an index: non-negative indices must be in
range, negative ones count from the end; `none` is an IndexError. -/
def pyIndex (i : Int) (len : Nat) : Option Nat :=
  if 0 ≤ i then
    if i < (len : Int) then some i.toNat else none
  else
    if 0 ≤ i + (len : Int) then some (i + (len : Int)).toNat else none

/-- The attribute names `hasattr(self, key)` can see besides `classes_`: the
instance attributes `__init__` sets and the class's own methods.  (Members
inherited from the estimator base class are outside the staged source and
not listed; no claim exercises such a key.) -/
def classAttrNames : List PyStr :=
  ["layers".toList, "input_layer".toList, "output_layer".toList,
   "network_params".toList, "trainers".toList, "exp".toList, "features".toList,
   "fit".toList, "partial_fit".toList, "predict_proba".toList,
   "staged_predict_proba".toList, "set_params".toList, "get_params".toList]

namespace TheanetsClassifier

/-- Python's `hasattr(self, key)`: an instance attribute, a method, or
`classes_` once a training call has set it. -/
def hasattr (self : TheanetsClassifier) (key : PyStr) : Bool :=
  decide (key ∈ classAttrNames) || (decide (key = "classes_".toList) && self.classes_.isSome)

/-- Python's `setattr(self, key, value)` for the keys `hasattr` accepts, at
the embedding's types.  A value whose runtime type does not fit the field
(which Python would store as-is, poisoning every later use), an assignment
to `trainers`, `exp` or `network_params` wholesale, and the shadowing of a
method are representable in Python but exercised by no claim; the embedding
records them as a no-op. -/
def setattr (self : TheanetsClassifier) (key : PyStr) (value : PyVal) :
    TheanetsClassifier :=
  if key = "layers".toList then
    match value with
    | PyVal.intList l => { self with layers := l }
    | _ => self
  else if key = "input_layer".toList then
    match value with
    | PyVal.int i => { self with input_layer := i }
    | _ => self
  else if key = "output_layer".toList then
    match value with
    | PyVal.int i => { self with output_layer := i }
    | _ => self
  else if key = "features".toList then
    match value with
    | PyVal.pynone => { self with features := none }
    | PyVal.strList l => { self with features := some l }
    | _ => self
  else if key = "classes_".toList then
    match value with
    | PyVal.intList l => { self with classes_ := some l }
    | _ => self
  else
    self

end TheanetsClassifier

/-- The message `set_params` appends to an unknown underscore-free key. -/
def invalidParamMsg : PyStr :=
  (" is an invalid parameter for a NN with multiple training").toList

namespace TheanetsClassifier

/-- One iteration of the `set_params` loop, for one `key, value` pair:
attribute keys are set directly; `network_params` keys update that option;
otherwise the key is split at its first underscore — no underscore raises
AttributeError naming the key, then the first seven characters of the part
before the underscore are dropped and the rest fed to `int()` (ValueError on
failure), and the resulting index selects the trainer stage to update
(IndexError out of range). -/
def setParamsStep (self : TheanetsClassifier) (key : PyStr) (value : PyVal) :
    Except PyErr TheanetsClassifier :=
  if self.hasattr key then
    .ok (self.setattr key value)
  else if (dictLookup self.network_params key).isSome then
    .ok { self with network_params := dictSet self.network_params key value }
  else
    match pyPartition '_' key with
    | (_, none) => .error (.attributeError (key ++ invalidParamMsg))
    | (pre, some param) =>
      match pyInt (pre.drop 7) with
      | none => .error .valueError
      | some n =>
        match pyIndex n self.trainers.length with
        | none => .error .indexError
        | some i =>
          .ok { self with
                trainers := self.trainers.set i (dictSet (self.trainers.getD i []) param value) }

/-- `set_params(**params)`: the loop over the items, stopping at the first
error; the pair returned is the state reached and the error raised, if any
(a Python exception leaves the mutations of the earlier iterations in
place). -/
def set_params : TheanetsClassifier → List (PyStr × PyVal) →
    TheanetsClassifier × Option PyErr
  | self, [] => (self, none)
  | self, (k, v) :: rest =>
    match setParamsStep self k v with
    | .ok s => s.set_params rest
    | .error e => (self, some e)

end TheanetsClassifier

/-- A value of the flat dict `get_params` returns: a plain value, or the
trainer schedule (a list of stage dicts). -/
inductive ParamVal where
  | base (v : PyVal) : ParamVal
  | stages (l : List Stage) : ParamVal
  deriving DecidableEq

/-- Lookup in a `get_params` result dict. -/
def pdictLookup (d : List (PyStr × ParamVal)) (k : PyStr) : Option ParamVal :=
  (d.find? (fun kv => kv.1 == k)).map (fun kv => kv.2)

namespace TheanetsClassifier

/-- `get_params()`: a copy of `network_params` extended with `layers`,
`input_layer`, `output_layer`, `trainers` and `features`. -/
def get_params (self : TheanetsClassifier) : List (PyStr × ParamVal) :=
  (self.network_params.map (fun kv => (kv.1, ParamVal.base kv.2)))
    ++ [("layers".toList, ParamVal.base (PyVal.intList self.layers)),
        ("input_layer".toList, ParamVal.base (PyVal.int self.input_layer)),
        ("output_layer".toList, ParamVal.base (PyVal.int self.output_layer)),
        ("trainers".toList, ParamVal.stages self.trainers),
        ("features".toList,
         match self.features with
         | none => ParamVal.base PyVal.pynone
         | some fs => ParamVal.base (PyVal.strList fs))]

end TheanetsClassifier

/-! ### Concrete data for the witnesses and counterexamples -/

/-- A 100-row, 4-column feature table. -/
def exampleX : DataFrame :=
  ⟨[("f0", (List.range 100).map (fun i => (i : Rat))),
    ("f1", (List.range 100).map (fun i => ((i * i : Nat) : Rat))),
    ("f2", (List.range 100).map (fun i => ((i % 7 : Nat) : Rat))),
    ("f3", List.replicate 100 (1 : Rat))]⟩

/-- 100 labels with 3 distinct values. -/
def exampleY : List Int :=
  (List.range 100).map (fun i => ((i % 3 : Nat) : Int))

/-- An adapter constructed with `layers=[5]`, `input_layer=-1`,
`output_layer=-1` and all other arguments at their defaults. -/
def exampleAdapter : TheanetsClassifier :=
  TheanetsClassifier.init [5] (-1) (-1) "logistic" "linear" PyVal.pynone
    (PyVal.int 0) (PyVal.int 0) (PyVal.int 0) (PyVal.int 0) (PyVal.int 1) none none

/-- A small 3-row, 4-column feature table. -/
def smallX : DataFrame :=
  ⟨[("a", [0, 1, 2]), ("b", [5, 5, 5]), ("c", [1, 0, 1]), ("d", [3, 4, 5])]⟩

/-- Three labels, all distinct. -/
def smallY3 : List Int := [0, 1, 2]

/-- Three labels, two distinct. -/
def smallY2 : List Int := [0, 1, 0]

/-- A non-`None` sample weight for the small table. -/
def smallW : List Rat := [1, 1, 1]

/-- The adapter `exampleAdapter` after a full `fit` on `(smallX, smallY3)`:
its sentinels have been overwritten with the inferred sizes 4 and 3. -/
def fittedAdapter : TheanetsClassifier :=
  (exampleAdapter.fit smallX smallY3 none).toOption.getD exampleAdapter

/-- An adapter with a two-stage trainer schedule (for the `fit` replay
witness). -/
def twoStageAdapter : TheanetsClassifier :=
  TheanetsClassifier.init [5] (-1) (-1) "logistic" "linear" PyVal.pynone
    (PyVal.int 0) (PyVal.int 0) (PyVal.int 0) (PyVal.int 0) (PyVal.int 1) none
    (some [[("algo".toList, PyVal.str "sgd")], [("algo".toList, PyVal.str "nag")]])

/-! ### Observations on adapter states -/

/-- The stage-parameter dicts of the training calls actually applied to the
current handle, in order ([] for an untrained adapter). -/
def historyTrainers (s : TheanetsClassifier) : List Stage :=
  match s.exp with
  | none => []
  | some e => e.history.map (fun c => c.trainer)

/-- The layer sequence a lazy construction by `partial_fit` would build from
the adapter's current configuration and the batch `(X, y)`: explicit sizes
win, each `-1` sentinel is replaced by the observed count. -/
def resolvedLayers (s : TheanetsClassifier) (X : DataFrame) (y : List Int) : List Int :=
  [if s.input_layer = -1 then ((transformData s.features X).length : Int) else s.input_layer]
    ++ s.layers
    ++ [if s.output_layer = -1 then ((npUnique y).length : Int) else s.output_layer]

/-- The layer sequence the handle has after one more training call on
`(X, y)`: the existing handle's, or the freshly resolved one. -/
def nextExpLayers (s : TheanetsClassifier) (X : DataFrame) (y : List Int) : List Int :=
  match s.exp with
  | some e => e.layers
  | none => resolvedLayers s X y

/-- The keys of `network_params` as `__init__` builds it. -/
def standardNetworkKeys : List PyStr :=
  ["hidden_activation".toList, "output_activation".toList, "rng".toList,
   "input_noise".toList, "hidden_noise".toList, "input_dropouts".toList,
   "hidden_dropouts".toList, "decode_from".toList]

/-! ### npUnique really is the sorted set of distinct labels -/

theorem mem_insertSorted (x a : Int) : ∀ l : List Int,
    a ∈ insertSorted x l ↔ a = x ∨ a ∈ l := by
  intro l
  induction l with
  | nil => simp [insertSorted]
  | cons b bs ih =>
    by_cases hxb : x ≤ b
    · simp [insertSorted, hxb]
    · simp [insertSorted, hxb, ih]
      tauto

theorem sorted_insertSorted (x : Int) : ∀ l : List Int,
    l.Sorted (· ≤ ·) → (insertSorted x l).Sorted (· ≤ ·) := by
  intro l
  induction l with
  | nil => intro _; simp [insertSorted]
  | cons b bs ih =>
    intro h
    rw [List.sorted_cons] at h
    obtain ⟨hb, hbs⟩ := h
    by_cases hxb : x ≤ b
    · rw [insertSorted, if_pos hxb, List.sorted_cons]
      refine ⟨?_, by rw [List.sorted_cons]; exact ⟨hb, hbs⟩⟩
      intro c hc
      rcases List.mem_cons.mp hc with hcb | hcbs
      · rw [hcb]; exact hxb
      · exact le_trans hxb (hb c hcbs)
    · rw [insertSorted, if_neg hxb, List.sorted_cons]
      refine ⟨?_, ih hbs⟩
      intro c hc
      rcases (mem_insertSorted x c bs).mp hc with hcx | hcbs
      · rw [hcx]; exact le_of_not_le hxb
      · exact hb c hcbs

theorem sortInts_sorted (y : List Int) : (sortInts y).Sorted (· ≤ ·) := by
  induction y with
  | nil => simp [sortInts]
  | cons a as ih => exact sorted_insertSorted a _ ih

theorem mem_sortInts (a : Int) (y : List Int) : a ∈ sortInts y ↔ a ∈ y := by
  induction y with
  | nil => simp [sortInts]
  | cons b bs ih =>
    rw [sortInts, List.foldr_cons]
    rw [mem_insertSorted]
    rw [show List.foldr insertSorted [] bs = sortInts bs from rfl, ih]
    simp

/-- `npUnique` is the sorted set of distinct labels: sorted ascending,
duplicate-free, and holding exactly the labels observed. -/
theorem npUnique_spec (y : List Int) :
    (npUnique y).Sorted (· ≤ ·) ∧ (npUnique y).Nodup
    ∧ ∀ a, a ∈ npUnique y ↔ a ∈ y := by
  refine ⟨(sortInts_sorted y).sublist (sortInts y).dedup_sublist, List.nodup_dedup _, ?_⟩
  intro a
  rw [npUnique, List.mem_dedup, mem_sortInts]

/-! ### Inversion lemmas for the training operations -/

theorem check_inputs_ok {X : DataFrame} {y : List Int} {sw : Option (List Rat)}
    {t : DataFrame × List Int × Option (List Rat)}
    (h : check_inputs X y sw = .ok t) : t = (X, y, sw) := by
  unfold check_inputs at h
  split at h
  · exact (Except.ok.injEq _ _).mp h.symm
  · exact absurd h (by simp)

theorem partial_fit_ok_inv {self : TheanetsClassifier} {X : DataFrame} {y : List Int}
    {nt : Bool} {tr : Stage} {s' : TheanetsClassifier}
    (h : self.partial_fit X y none nt tr = .ok s') :
    s' = TheanetsClassifier.partialFitBody self X y nt tr := by
  unfold TheanetsClassifier.partial_fit at h
  simp only [Option.isSome_none, Bool.false_eq_true, if_false] at h
  cases hc : check_inputs X y none with
  | error e => rw [hc] at h; exact absurd h (by simp)
  | ok t =>
    have ht := check_inputs_ok hc
    rw [hc] at h
    subst ht
    exact ((Except.ok.injEq _ _).mp h).symm

theorem partial_fit_ok_of_check {self : TheanetsClassifier} {X : DataFrame} {y : List Int}
    {nt : Bool} {tr : Stage}
    (hok : (check_inputs X y none).isOk = true) :
    self.partial_fit X y none nt tr = .ok (TheanetsClassifier.partialFitBody self X y nt tr) := by
  unfold TheanetsClassifier.partial_fit
  simp only [Option.isSome_none, Bool.false_eq_true, if_false]
  cases hc : check_inputs X y none with
  | error e => rw [hc] at hok; exact Bool.noConfusion hok
  | ok t =>
    have ht := check_inputs_ok hc
    subst ht
    rfl

theorem TheanetsClassifier.partialFitBody_none {self : TheanetsClassifier} {X : DataFrame} {y : List Int}
    {nt : Bool} {tr : Stage} (h : self.exp = none) :
    TheanetsClassifier.partialFitBody self X y nt tr =
      { layers := self.layers
        input_layer := if self.input_layer = -1
          then ((transformData self.features X).length : Int) else self.input_layer
        output_layer := if self.output_layer = -1
          then ((npUnique y).length : Int) else self.output_layer
        network_params := self.network_params
        trainers := if nt then self.trainers ++ [tr] else self.trainers
        exp := some ⟨resolvedLayers self X y, self.network_params,
                     [⟨transformData self.features X, y, tr⟩]⟩
        features := self.features
        classes_ := some (npUnique y) } := by
  unfold TheanetsClassifier.partialFitBody
  simp only [h, Option.isNone_none, if_true, Experiment.train, resolvedLayers]
  cases nt <;> simp

theorem TheanetsClassifier.partialFitBody_some {self : TheanetsClassifier} {X : DataFrame} {y : List Int}
    {nt : Bool} {tr : Stage} {e : Experiment} (h : self.exp = some e) :
    TheanetsClassifier.partialFitBody self X y nt tr =
      { self with
        trainers := if nt then self.trainers ++ [tr] else self.trainers
        exp := some ⟨e.layers, e.net_params,
                     e.history ++ [⟨transformData self.features X, y, tr⟩]⟩
        classes_ := some (npUnique y) } := by
  unfold TheanetsClassifier.partialFitBody
  simp only [h, Option.isNone_some, if_false, Experiment.train, Option.map_some]
  cases nt <;> simp

/-- The `input_layer` attribute after one more training call: unchanged when
a handle exists, otherwise the resolved value the lazy construction stores. -/
def nextInputLayer (s : TheanetsClassifier) (X : DataFrame) : Int :=
  match s.exp with
  | some _ => s.input_layer
  | none => if s.input_layer = -1 then ((transformData s.features X).length : Int)
            else s.input_layer

/-- The `output_layer` attribute after one more training call. -/
def nextOutputLayer (s : TheanetsClassifier) (y : List Int) : Int :=
  match s.exp with
  | some _ => s.output_layer
  | none => if s.output_layer = -1 then ((npUnique y).length : Int) else s.output_layer

theorem partialFitBody_fields (self : TheanetsClassifier) (X : DataFrame) (y : List Int)
    (nt : Bool) (tr : Stage) :
    (TheanetsClassifier.partialFitBody self X y nt tr).trainers
        = (if nt then self.trainers ++ [tr] else self.trainers)
    ∧ (TheanetsClassifier.partialFitBody self X y nt tr).layers = self.layers
    ∧ (TheanetsClassifier.partialFitBody self X y nt tr).features = self.features
    ∧ (TheanetsClassifier.partialFitBody self X y nt tr).network_params = self.network_params
    ∧ (TheanetsClassifier.partialFitBody self X y nt tr).classes_ = some (npUnique y)
    ∧ (TheanetsClassifier.partialFitBody self X y nt tr).input_layer = nextInputLayer self X
    ∧ (TheanetsClassifier.partialFitBody self X y nt tr).output_layer = nextOutputLayer self y
    ∧ (TheanetsClassifier.partialFitBody self X y nt tr).exp.map Experiment.layers
        = some (nextExpLayers self X y)
    ∧ historyTrainers (TheanetsClassifier.partialFitBody self X y nt tr)
        = historyTrainers self ++ [tr] := by
  cases h : self.exp with
  | none =>
    rw [TheanetsClassifier.partialFitBody_none h]
    simp [historyTrainers, nextInputLayer, nextOutputLayer, nextExpLayers, h]
  | some e =>
    rw [TheanetsClassifier.partialFitBody_some h]
    simp [historyTrainers, nextInputLayer, nextOutputLayer, nextExpLayers, h]

theorem nextExpLayers_of_map {s : TheanetsClassifier} {X : DataFrame} {y : List Int}
    {L : List Int} (h : s.exp.map Experiment.layers = some L) :
    nextExpLayers s X y = L := by
  cases he : s.exp with
  | none => rw [he] at h; exact absurd h (by simp)
  | some e =>
    rw [he] at h
    simp only [Option.map_some', Option.some.injEq] at h
    simp [nextExpLayers, he, h]

theorem nextInputLayer_of_some {s : TheanetsClassifier} {X : DataFrame}
    (h : s.exp.isSome = true) : nextInputLayer s X = s.input_layer := by
  cases he : s.exp with
  | none => rw [he] at h; exact Bool.noConfusion h
  | some e => simp [nextInputLayer, he]

theorem nextOutputLayer_of_some {s : TheanetsClassifier} {y : List Int}
    (h : s.exp.isSome = true) : nextOutputLayer s y = s.output_layer := by
  cases he : s.exp with
  | none => rw [he] at h; exact Bool.noConfusion h
  | some e => simp [nextOutputLayer, he]

/-- What one pass of the `fit` replay loop establishes, by induction over the
schedule suffix still to run. -/
theorem fit_loop_ok (X : DataFrame) (y : List Int) :
    ∀ (ts : List Stage) (s s' : TheanetsClassifier),
    ts.foldlM (fun acc tr => acc.partial_fit X y none false tr) s = .ok s' →
    s'.trainers = s.trainers ∧ s'.layers = s.layers ∧ s'.features = s.features ∧
    s'.network_params = s.network_params ∧
    historyTrainers s' = historyTrainers s ++ ts ∧
    (ts = [] → s' = s) ∧
    (ts ≠ [] →
        s'.exp.map Experiment.layers = some (nextExpLayers s X y)
      ∧ s'.classes_ = some (npUnique y)
      ∧ s'.input_layer = nextInputLayer s X
      ∧ s'.output_layer = nextOutputLayer s y) := by
  intro ts
  induction ts with
  | nil =>
    intro s s' h
    simp only [List.foldlM_nil] at h
    have hs : s = s' := by simpa [pure, Except.pure] using h
    subst hs
    simp
  | cons t rest ih =>
    intro s s' h
    simp only [List.foldlM_cons] at h
    cases hstep : s.partial_fit X y none false t with
    | error e => rw [hstep] at h; exact absurd h (by simp [Bind.bind, Except.bind])
    | ok s1 =>
      rw [hstep] at h
      simp only [Bind.bind, Except.bind] at h
      have hs1 : s1 = TheanetsClassifier.partialFitBody s X y false t :=
        partial_fit_ok_inv hstep
      have hb := partialFitBody_fields s X y false t
      rw [← hs1] at hb
      obtain ⟨htr, hlay, hfeat, hnp, hclass, hin, hout, hexp, hhist⟩ := hb
      simp only [if_neg Bool.false_ne_true] at htr
      obtain ⟨ih1, ih2, ih3, ih4, ih5, ihnil, ihcons⟩ := ih s1 s' h
      have hsome : s1.exp.isSome = true := by
        cases he : s1.exp with
        | none => rw [he] at hexp; exact absurd hexp (by simp)
        | some e => rfl
      refine ⟨ih1.trans htr, ih2.trans hlay, ih3.trans hfeat, ih4.trans hnp, ?_, ?_, ?_⟩
      · rw [ih5, hhist]; simp
      · intro hc; exact absurd hc (by simp)
      · intro _
        cases hrest : rest with
        | nil =>
          have hs' := ihnil hrest
          subst hs'
          exact ⟨hexp, hclass, hin, hout⟩
        | cons r rs =>
          have hne : rest ≠ [] := by rw [hrest]; simp
          obtain ⟨c1, c2, c3, c4⟩ := ihcons hne
          refine ⟨?_, c2, ?_, ?_⟩
          · rw [c1, @nextExpLayers_of_map s1 X y _ hexp]
          · rw [c3, nextInputLayer_of_some hsome, hin]
          · rw [c4, nextOutputLayer_of_some hsome, hout]

/-- When the inputs validate, the `fit` replay loop never fails and equals
the pure fold of `partialFitBody`. -/
theorem fit_loop_total (X : DataFrame) (y : List Int)
    (hok : (check_inputs X y none).isOk = true) :
    ∀ (ts : List Stage) (s : TheanetsClassifier),
    ts.foldlM (fun acc tr => acc.partial_fit X y none false tr) s
      = .ok (ts.foldl (fun acc tr => TheanetsClassifier.partialFitBody acc X y false tr) s) := by
  intro ts
  induction ts with
  | nil => intro s; rfl
  | cons t rest ih =>
    intro s
    simp only [List.foldlM_cons, List.foldl_cons]
    rw [partial_fit_ok_of_check hok]
    simp only [Bind.bind, Except.bind]
    exact ih _

/-- What a successful `fit` establishes, stated against the starting
adapter. -/
theorem fit_ok_spec (self : TheanetsClassifier) (X : DataFrame) (y : List Int)
    (sw : Option (List Rat)) (hok : (check_inputs X y none).isOk = true) :
    ∃ s', self.fit X y sw = .ok s'
      ∧ s'.trainers = self.trainers
      ∧ historyTrainers s' = self.trainers
      ∧ s'.layers = self.layers
      ∧ s'.features = self.features
      ∧ (self.trainers = [] → s' = { self with exp := none })
      ∧ (self.trainers ≠ [] →
           s'.exp.map Experiment.layers = some (resolvedLayers self X y)
         ∧ s'.classes_ = some (npUnique y)
         ∧ s'.input_layer = (if self.input_layer = -1
             then ((transformData self.features X).length : Int) else self.input_layer)
         ∧ s'.output_layer = (if self.output_layer = -1
             then ((npUnique y).length : Int) else self.output_layer)) := by
  have hloop := fit_loop_total X y hok self.trainers { self with exp := none }
  have hfit : self.fit X y sw
      = .ok (self.trainers.foldl
          (fun acc tr => TheanetsClassifier.partialFitBody acc X y false tr)
          { self with exp := none }) := by
    unfold TheanetsClassifier.fit
    exact hloop
  obtain ⟨h1, h2, h3, h4, h5, h6, h7⟩ :=
    fit_loop_ok X y self.trainers { self with exp := none } _ hloop
  refine ⟨_, hfit, h1, ?_, h2, h3, h6, ?_⟩
  · rw [h5]; rfl
  · intro hne
    obtain ⟨c1, c2, c3, c4⟩ := h7 hne
    refine ⟨?_, c2, ?_, ?_⟩
    · rw [c1]; rfl
    · rw [c3]; rfl
    · rw [c4]; rfl

/-! ### The claims -/

/-- C1: for every adapter and every valid `(X, y)`, `fit` first discards the
existing Trained Network Handle and then invokes `partial_fit` once per
entry of the Trainer Schedule, in order, with `new_trainer=False`: the
schedule is identical before and after (`s'.trainers = self.trainers`), and
the history of stages applied to the returned adapter's fresh handle is
exactly the schedule, in order (`historyTrainers s' = self.trainers`).  The
successful result (`Except.ok s'`) models `return self`. -/
theorem fit_replays_schedule (self : TheanetsClassifier) (X : DataFrame) (y : List Int)
    (sw : Option (List Rat)) (s' : TheanetsClassifier)
    (h : self.fit X y sw = .ok s') :
    s'.trainers = self.trainers ∧ historyTrainers s' = self.trainers := by
  unfold TheanetsClassifier.fit at h
  obtain ⟨h1, -, -, -, h5, -, -⟩ := fit_loop_ok X y _ _ _ h
  constructor
  · simpa using h1
  · rw [h5]; rfl

/-- The result of `fit` on the two-stage adapter (for the C1 witness). -/
def twoStageFitted : TheanetsClassifier :=
  (twoStageAdapter.fit smallX smallY3 none).toOption.getD twoStageAdapter

/-- C1, witnessed at a two-stage schedule on a concrete table. -/
theorem fit_replays_schedule_witness :
    twoStageFitted.trainers = twoStageAdapter.trainers
    ∧ historyTrainers twoStageFitted = twoStageAdapter.trainers :=
  fit_replays_schedule twoStageAdapter smallX smallY3 none twoStageFitted (by decide)

/-- C2: a training call made while no handle exists resolves the layer
sizes before constructing the network: an explicit size is used as-is, the
`-1` sentinel is replaced by the observed feature count (input) and the
observed distinct-label count (output), and the handle is built with the
full sequence input :: hidden ++ [output] (see `resolvedLayers`). -/
theorem partial_fit_resolves_layers (self : TheanetsClassifier) (X : DataFrame)
    (y : List Int) (nt : Bool) (tr : Stage) (hexp : self.exp = none)
    (hok : (check_inputs X y none).isOk = true) :
    (self.partial_fit X y none nt tr).map (fun s => s.exp.map Experiment.layers)
      = .ok (some (resolvedLayers self X y)) := by
  rw [partial_fit_ok_of_check hok]
  rw [TheanetsClassifier.partialFitBody_none hexp]
  rfl

/-- C2, witnessed at the spec's example: `layers=[5]`, both sentinels, a
100×4 table with 3 distinct labels resolves to `[4, 5, 3]`. -/
theorem partial_fit_resolves_layers_witness :
    (exampleAdapter.partial_fit exampleX exampleY none false []).map
        (fun s => s.exp.map Experiment.layers)
      = .ok (some [4, 5, 3]) :=
  (partial_fit_resolves_layers exampleAdapter exampleX exampleY false []
    (by decide) (by decide)).trans (by decide)

/-- C5: the serialization round-trip restores the whole adapter state — all
configuration fields, and a `None` handle exactly when the snapshot's
`dumped_exp` is `None` (the "empty" tag) — so `predict_proba` on the
restored adapter equals the original's. -/
theorem pickle_roundtrip (self : TheanetsClassifier) (X : DataFrame) :
    TheanetsClassifier.setstate self.getstate = self
    ∧ (self.getstate.dumped_exp = none ↔ self.exp = none)
    ∧ (TheanetsClassifier.setstate self.getstate).predict_proba X
        = self.predict_proba X := by
  obtain ⟨l, il, ol, np, trs, ex, fs, cl⟩ := self
  have h1 : TheanetsClassifier.setstate
      (TheanetsClassifier.getstate ⟨l, il, ol, np, trs, ex, fs, cl⟩)
      = ⟨l, il, ol, np, trs, ex, fs, cl⟩ := by
    cases ex <;>
      simp [TheanetsClassifier.getstate, TheanetsClassifier.setstate,
            Experiment.save, Experiment.load]
  refine ⟨h1, ?_, by rw [h1]⟩
  cases ex <;>
    simp [TheanetsClassifier.getstate, Experiment.save]

/-- C8: `partial_fit` rejects a non-`None` `sample_weight` with
NotSupported, but `fit` does not: the source's `fit` never passes
`sample_weight` on to `partial_fit`, so a weighted `fit` call silently
trains unweighted instead of failing as documented. -/
theorem fit_ignores_sample_weight :
    (exampleAdapter.fit smallX smallY3 (some smallW)).isOk = true
    ∧ exampleAdapter.partial_fit smallX smallY3 (some smallW) true []
        = .error PyErr.notImplementedError := by
  exact ⟨by decide, by decide⟩

/-- C9: a freshly constructed adapter has no handle; `predict_proba` fails
with NotFitted (a failed assertion) exactly while the handle is `None`, and
succeeds whenever a handle exists. -/
theorem predict_proba_requires_fit (ls : List Int) (il ol : Int) (ha oa : String)
    (rng n1 n2 d1 d2 df : PyVal) (fs : Option (List String))
    (trs : Option (List Stage)) (self : TheanetsClassifier) (X : DataFrame) :
    (TheanetsClassifier.init ls il ol ha oa rng n1 n2 d1 d2 df fs trs).exp = none
    ∧ (self.exp = none → self.predict_proba X = .error PyErr.assertionError)
    ∧ (self.exp ≠ none → (self.predict_proba X).isOk = true) := by
  refine ⟨rfl, ?_, ?_⟩
  · intro h
    simp [TheanetsClassifier.predict_proba, TheanetsClassifier.check_fitted, h,
          Bind.bind, Except.bind]
  · intro h
    cases he : self.exp with
    | none => exact absurd he h
    | some e =>
      simp [TheanetsClassifier.predict_proba, TheanetsClassifier.check_fitted, he,
            Bind.bind, Except.bind, Except.isOk, Except.toBool]

/-- C3, counterexample: `set_params(bogus_key=1)` does not fail with the
InvalidParameter error (`attributeError`, which names the offending key):
the key contains an underscore, so it is routed through the trainer-key
parser, `int('bogus'[7:])` is `int('')`, and a bare ValueError is raised,
naming nothing. -/
theorem set_params_bogus_key_cex :
    theanetsDefault.set_params [("bogus_key".toList, PyVal.int 1)]
      = (theanetsDefault, some PyErr.valueError) := by decide

/-- C6, counterexample: after a first fit inferred output width 3 from the
sentinel, the sentinel is gone (`output_layer = 3`), so discarding the
handle and refitting on data with 2 distinct labels still constructs the
new network with output width 3, not 2. -/
theorem refit_keeps_old_output_width_cex :
    exampleAdapter.output_layer = -1
    ∧ fittedAdapter.output_layer = 3
    ∧ npUnique smallY2 = [0, 1]
    ∧ (fittedAdapter.fit smallX smallY2 none).map (fun s => s.exp.map Experiment.layers)
        = .ok (some [4, 5, 3]) := by decide

/-- C7, counterexample: a direct `partial_fit` after a full fit does change
the Class Label Set: the fit on labels `{0,1,2}` set `classes_ = [0,1,2]`,
and the subsequent `partial_fit` on labels `{0,1}` overwrites it with
`[0,1]`. -/
theorem partial_fit_overwrites_classes_cex :
    fittedAdapter.classes_ = some [0, 1, 2]
    ∧ (fittedAdapter.partial_fit smallX smallY2 none true []).map (fun s => s.classes_)
        = .ok (some [0, 1]) := by decide

/-- C7 (amended): the Class Label Set equals the sorted distinct labels of
the most recent training call of either kind — `classes_` is overwritten by
every successful `partial_fit`, whether called directly or replayed by a
full `fit` — so a direct `partial_fit` after a fit does update it. -/
theorem classes_track_last_training (self : TheanetsClassifier) (X : DataFrame)
    (y : List Int) (sw : Option (List Rat)) (nt : Bool) (tr : Stage)
    (hok : (check_inputs X y none).isOk = true) :
    (self.partial_fit X y none nt tr).map (fun s => s.classes_)
        = .ok (some (npUnique y))
    ∧ (self.trainers ≠ [] →
        (self.fit X y sw).map (fun s => s.classes_) = .ok (some (npUnique y))) := by
  constructor
  · rw [partial_fit_ok_of_check hok]
    have hc := (partialFitBody_fields self X y nt tr).2.2.2.2.1
    simp [Except.map, hc]
  · intro hne
    obtain ⟨s', hfit, -, -, -, -, -, h7⟩ := fit_ok_spec self X y sw hok
    obtain ⟨-, hcl, -, -⟩ := h7 hne
    rw [hfit]
    simp [Except.map, hcl]

/-- C7 (amended), witnessed: after the fit on labels `{0,1,2}`, a direct
`partial_fit` on labels `{0,1,0}` sets the Class Label Set to `[0,1]`. -/
theorem classes_track_last_training_witness :
    (fittedAdapter.partial_fit smallX smallY2 none true []).map (fun s => s.classes_)
      = .ok (some (npUnique smallY2)) :=
  (classes_track_last_training fittedAdapter smallX smallY2 none true [] (by decide)).1

/-- C6 (amended): the output width is frozen for the lifetime of a handle —
a `partial_fit` against an existing handle leaves its layer sequence
unchanged — but discarding the handle and refitting from scratch is NOT
sufficient to change it: the first training overwrote the `-1` sentinel, so
a refit with stored sizes (≠ -1) rebuilds the network with exactly the
stored input/output widths, ignoring the new data's distinct-label count;
re-inferring additionally requires resetting `output_layer` to `-1`. -/
theorem output_width_frozen_until_reset (self : TheanetsClassifier) (X : DataFrame)
    (y : List Int) (sw : Option (List Rat)) (e : Experiment) (tr : Stage)
    (hin : self.input_layer ≠ -1) (hout : self.output_layer ≠ -1)
    (htr : self.trainers ≠ []) (hok : (check_inputs X y none).isOk = true) :
    (self.exp = some e →
        (self.partial_fit X y none true tr).map (fun s => s.exp.map Experiment.layers)
          = .ok (some e.layers))
    ∧ (self.fit X y sw).map (fun s => s.exp.map Experiment.layers)
        = .ok (some ([self.input_layer] ++ self.layers ++ [self.output_layer]))
    ∧ (({ self with output_layer := -1 } : TheanetsClassifier).fit X y sw).map
          (fun s => s.exp.map Experiment.layers)
        = .ok (some ([self.input_layer] ++ self.layers ++ [((npUnique y).length : Int)])) := by
  refine ⟨?_, ?_, ?_⟩
  · intro hexp
    rw [partial_fit_ok_of_check hok, TheanetsClassifier.partialFitBody_some hexp]
    simp [Except.map]
  · obtain ⟨s', hfit, -, -, -, -, -, h7⟩ := fit_ok_spec self X y sw hok
    obtain ⟨hl, -, -, -⟩ := h7 htr
    rw [hfit]
    simp only [Except.map, hl, resolvedLayers, if_neg hin, if_neg hout]
  · obtain ⟨s', hfit, -, -, -, -, -, h7⟩ :=
      fit_ok_spec { self with output_layer := -1 } X y sw hok
    obtain ⟨hl, -, -, -⟩ := h7 (by simpa using htr)
    rw [hfit]
    simp only [Except.map, hl, resolvedLayers]
    simp [if_neg hin]

/-- The trained handle of `fittedAdapter` (for the C6 witness). -/
def fittedExp : Experiment :=
  fittedAdapter.exp.getD ⟨[], [], []⟩

/-- C6 (amended), witnessed at the fitted example adapter and a batch with
two distinct labels. -/
theorem output_width_frozen_until_reset_witness :
    (fittedAdapter.exp = some fittedExp →
        (fittedAdapter.partial_fit smallX smallY2 none true []).map
            (fun s => s.exp.map Experiment.layers)
          = .ok (some fittedExp.layers))
    ∧ (fittedAdapter.fit smallX smallY2 none).map (fun s => s.exp.map Experiment.layers)
        = .ok (some ([fittedAdapter.input_layer] ++ fittedAdapter.layers
                ++ [fittedAdapter.output_layer]))
    ∧ (({ fittedAdapter with output_layer := -1 } : TheanetsClassifier).fit
          smallX smallY2 none).map (fun s => s.exp.map Experiment.layers)
        = .ok (some ([fittedAdapter.input_layer] ++ fittedAdapter.layers
                ++ [((npUnique smallY2).length : Int)])) :=
  output_width_frozen_until_reset fittedAdapter smallX smallY2 none fittedExp []
    (by decide) (by decide) (by decide) (by decide)

/-- C3 (amended): an unknown key (neither an attribute nor a network
option) with no underscore fails with the InvalidParameter AttributeError
naming the key; an unknown key containing an underscore is routed through
the trainer-key parser, which ignores the first seven characters before the
underscore entirely: it fails with a bare ValueError (naming nothing) when
the remainder is not an integer, and with an IndexError when the integer is
out of range as a stage index — in particular `set_params(bogus_key=1)`
raises ValueError, not an error naming the key. -/
theorem set_params_unknown_key_errors (self : TheanetsClassifier) (key : PyStr)
    (v : PyVal) (hattr : self.hasattr key = false)
    (hnp : dictLookup self.network_params key = none) :
    (∀ pre, pyPartition '_' key = (pre, none) →
        self.set_params [(key, v)]
          = (self, some (PyErr.attributeError (key ++ invalidParamMsg))))
    ∧ (∀ pre param, pyPartition '_' key = (pre, some param) →
        pyInt (pre.drop 7) = none →
        self.set_params [(key, v)] = (self, some PyErr.valueError))
    ∧ (∀ pre param n, pyPartition '_' key = (pre, some param) →
        pyInt (pre.drop 7) = some n →
        pyIndex n self.trainers.length = none →
        self.set_params [(key, v)] = (self, some PyErr.indexError)) := by
  have hstep : ∀ e : PyErr,
      TheanetsClassifier.setParamsStep self key v = .error e →
      self.set_params [(key, v)] = (self, some e) := by
    intro e he
    simp [TheanetsClassifier.set_params, he]
  refine ⟨?_, ?_, ?_⟩
  · intro pre hpart
    apply hstep
    unfold TheanetsClassifier.setParamsStep
    simp only [hattr, hnp, Option.isSome_none, Bool.false_eq_true, if_false]
    rw [hpart]
  · intro pre param hpart hint
    apply hstep
    unfold TheanetsClassifier.setParamsStep
    simp only [hattr, hnp, Option.isSome_none, Bool.false_eq_true, if_false]
    rw [hpart]
    simp [hint]
  · intro pre param n hpart hint hidx
    apply hstep
    unfold TheanetsClassifier.setParamsStep
    simp only [hattr, hnp, Option.isSome_none, Bool.false_eq_true, if_false]
    rw [hpart]
    simp [hint, hidx]

/-- C3 (amended), witnessed on a second unknown-key shape: an in-form
trainer key whose stage index is out of range raises IndexError. -/
theorem set_params_unknown_key_errors_witness :
    theanetsDefault.set_params [("trainer9_rate".toList, PyVal.int 1)]
      = (theanetsDefault, some PyErr.indexError) :=
  (set_params_unknown_key_errors theanetsDefault ("trainer9_rate".toList) (PyVal.int 1)
      (by decide) (by decide)).2.2 ("trainer9".toList) ("rate".toList) 9
    (by decide) (by decide) (by decide)

/-! ### String lemmas for the trainer-key routing (C4) -/

/-- A `set_params` call with a single pair whose step succeeds. -/
theorem set_params_single_ok (self : TheanetsClassifier) (k : PyStr) (v : PyVal)
    (s : TheanetsClassifier)
    (h : TheanetsClassifier.setParamsStep self k v = .ok s) :
    self.set_params [(k, v)] = (s, none) := by
  simp [TheanetsClassifier.set_params, h]

theorem pyPartition_append (sep : Char) (r : PyStr) :
    ∀ l : PyStr, sep ∉ l → pyPartition sep (l ++ sep :: r) = (l, some r) := by
  intro l
  induction l with
  | nil => intro _; simp [pyPartition]
  | cons c cs ih =>
    intro h
    have hc : c ≠ sep := by
      intro he; exact h (by rw [he]; exact List.mem_cons_self _ _)
    have hcs : sep ∉ cs := fun hm => h (List.mem_cons_of_mem _ hm)
    simp [pyPartition, hc, ih hcs]

theorem digit_ne_underscore {c : Char} (h : c.isDigit = true) : c ≠ '_' := by
  intro he; rw [he] at h; exact Bool.noConfusion h

theorem pyInt_of_digits {ds : PyStr} {n : Nat} (hne : ds ≠ [])
    (hdig : ∀ c ∈ ds, c.isDigit = true) (hval : digitsNat ds = some n) :
    pyInt ds = some (n : Int) := by
  cases ds with
  | nil => exact absurd rfl hne
  | cons c cs =>
    have hc : c.isDigit = true := hdig c (List.mem_cons_self _ _)
    have hminus : c ≠ '-' := by intro he; rw [he] at hc; exact Bool.noConfusion hc
    have hplus : c ≠ '+' := by intro he; rw [he] at hc; exact Bool.noConfusion hc
    simp [pyInt, hminus, hplus, hval]

theorem pyIndex_natCast {n len : Nat} (h : n < len) :
    pyIndex (n : Int) len = some n := by
  unfold pyIndex
  rw [if_pos (by omega : (0 : Int) ≤ (n : Int))]
  rw [if_pos (by exact_mod_cast h)]
  simp

/-- A key of the shape `trainer<digits>_<param>` is no attribute of the
class: it is longer than every attribute name that starts with a `t`, and
its eighth character is a digit. -/
theorem trainer_key_not_hasattr (self : TheanetsClassifier) (c : Char) (cs param : PyStr) :
    self.hasattr ("trainer".toList ++ (c :: cs) ++ '_' :: param) = false := by
  have hT : "trainer".toList = ['t', 'r', 'a', 'i', 'n', 'e', 'r'] := rfl
  have hmem : ("trainer".toList ++ (c :: cs) ++ '_' :: param) ∉ classAttrNames := by
    intro hk
    -- every attribute name either is not 9+ characters long or does not start
    -- with the seven characters of "trainer"
    have hP2 : ∀ a ∈ classAttrNames, ¬ (a.take 7 = "trainer".toList ∧ 9 ≤ a.length) := by
      decide
    apply hP2 _ hk
    constructor
    · rw [List.append_assoc, show (7 : Nat) = ("trainer".toList).length from rfl,
          List.take_left]
    · rw [hT]; simp; omega
  have hcl : ("trainer".toList ++ (c :: cs) ++ '_' :: param) ≠ "classes_".toList := by
    intro he
    have hlen := congrArg List.length he
    rw [hT] at hlen
    simp at hlen
  unfold TheanetsClassifier.hasattr
  rw [decide_eq_false hmem, decide_eq_false hcl]
  simp

/-- C4: for every adapter and every key of the form `trainer<N>_<param>`
with `N` (a digit string) the index of an existing schedule stage, and the
key not shadowed by a network option, `set_params` updates exactly the
`param` entry of stage `N`: the returned state is the input state with only
`trainers` replaced, and within it only stage `N` rewritten by the dict
update — every other stage and every other field is literally unchanged. -/
theorem set_params_trainer_key (self : TheanetsClassifier) (ds param : PyStr)
    (v : PyVal) (n : Nat)
    (hne : ds ≠ []) (hdig : ∀ c ∈ ds, c.isDigit = true)
    (hval : digitsNat ds = some n) (hn : n < self.trainers.length)
    (hnp : dictLookup self.network_params ("trainer".toList ++ ds ++ '_' :: param) = none) :
    self.set_params [("trainer".toList ++ ds ++ '_' :: param, v)]
      = ({ self with
            trainers := self.trainers.set n (dictSet (self.trainers.getD n []) param v) },
         none) := by
  cases ds with
  | nil => exact absurd rfl hne
  | cons c cs =>
    have hc : c.isDigit = true := hdig c (List.mem_cons_self _ _)
    have hattr := trainer_key_not_hasattr self c cs param
    have hsep : '_' ∉ "trainer".toList ++ c :: cs := by
      intro hm
      rcases List.mem_append.mp hm with h | h
      · revert h; decide
      · exact digit_ne_underscore (hdig _ h) rfl
    have hpart : pyPartition '_' (("trainer".toList ++ c :: cs) ++ '_' :: param)
        = ("trainer".toList ++ c :: cs, some param) :=
      pyPartition_append '_' param _ hsep
    have hdrop : ("trainer".toList ++ c :: cs).drop 7 = c :: cs := by
      rw [show (7 : Nat) = ("trainer".toList).length from rfl, List.drop_left]
    have hint : pyInt (("trainer".toList ++ c :: cs).drop 7) = some (n : Int) := by
      rw [hdrop]; exact pyInt_of_digits hne hdig hval
    have hstep : TheanetsClassifier.setParamsStep self
        ("trainer".toList ++ c :: cs ++ '_' :: param) v
        = .ok { self with
                trainers := self.trainers.set n
                  (dictSet (self.trainers.getD n []) param v) } := by
      unfold TheanetsClassifier.setParamsStep
      simp only [hattr, hnp, Option.isSome_none, Bool.false_eq_true, if_false]
      rw [hpart]
      simp only [hint, pyIndex_natCast hn]
    exact set_params_single_ok _ _ _ _ hstep

/-- C4, witnessed: `set_params(trainer0_rate=0.1)` on the default adapter
updates stage 0's `rate` field only. -/
theorem set_params_trainer_key_witness :
    theanetsDefault.set_params [("trainer0_rate".toList, PyVal.num (1 / 10))]
      = ({ theanetsDefault with
            trainers := [[("rate".toList, PyVal.num (1 / 10))]] }, none) := by
  have h := set_params_trainer_key theanetsDefault ("0".toList) ("rate".toList)
    (PyVal.num (1 / 10)) 0 (by decide) (by decide) (by decide) (by decide) (by decide)
  exact h

/-! ### C10: the first training call overwrites the stored sentinels -/

/-- Entries copied from `network_params` never shadow a key they do not
contain. -/
theorem pdictLookup_skip_base (k : PyStr) (rest : List (PyStr × ParamVal)) :
    ∀ np : Stage, dictLookup np k = none →
    pdictLookup ((np.map (fun kv => (kv.1, ParamVal.base kv.2))) ++ rest) k
      = pdictLookup rest k := by
  intro np
  induction np with
  | nil => intro _; simp
  | cons hd tl ih =>
    intro h
    unfold dictLookup at h
    rw [List.find?_cons] at h
    cases hbeq : (hd.1 == k) with
    | true => rw [hbeq] at h; exact absurd h (by simp)
    | false =>
      rw [hbeq] at h
      unfold pdictLookup
      rw [List.map_cons, List.cons_append, List.find?_cons, hbeq]
      exact ih h

/-- `get_params` exposes the stored `input_layer` and `output_layer` when no
network option shadows those keys. -/
theorem get_params_layer_entries (s : TheanetsClassifier)
    (h1 : dictLookup s.network_params ("input_layer".toList) = none)
    (h2 : dictLookup s.network_params ("output_layer".toList) = none) :
    pdictLookup s.get_params ("input_layer".toList)
        = some (ParamVal.base (PyVal.int s.input_layer))
    ∧ pdictLookup s.get_params ("output_layer".toList)
        = some (ParamVal.base (PyVal.int s.output_layer)) := by
  unfold TheanetsClassifier.get_params
  rw [pdictLookup_skip_base _ _ _ h1, pdictLookup_skip_base _ _ _ h2]
  constructor <;> rfl

/-- C10 (implicit): the first successful training call on an adapter whose
sizes are both the `-1` sentinel overwrites the stored `input_layer` and
`output_layer` with the inferred sizes (observed feature count and
distinct-label count); after it, `get_params` reports the inferred sizes
rather than `-1`, and a later full `fit` on different data constructs its
network from the stored (inferred) sizes instead of re-reading the
sentinel. -/
theorem first_training_overwrites_sentinels (self : TheanetsClassifier)
    (X X2 : DataFrame) (y y2 : List Int) (nt : Bool) (tr : Stage)
    (sw : Option (List Rat))
    (hin : self.input_layer = -1) (hout : self.output_layer = -1)
    (hexp : self.exp = none) (htr : self.trainers ≠ [])
    (hok : (check_inputs X y none).isOk = true)
    (hok2 : (check_inputs X2 y2 none).isOk = true)
    (hnp1 : dictLookup self.network_params ("input_layer".toList) = none)
    (hnp2 : dictLookup self.network_params ("output_layer".toList) = none) :
    (self.partial_fit X y none nt tr).map (fun s => (s.input_layer, s.output_layer))
      = .ok (((transformData self.features X).length : Int),
             ((npUnique y).length : Int))
    ∧ (self.partial_fit X y none nt tr).map
        (fun s => (pdictLookup s.get_params ("input_layer".toList),
                   pdictLookup s.get_params ("output_layer".toList)))
      = .ok (some (ParamVal.base (PyVal.int ((transformData self.features X).length : Int))),
             some (ParamVal.base (PyVal.int ((npUnique y).length : Int))))
    ∧ ((self.partial_fit X y none nt tr).bind (fun s => s.fit X2 y2 sw)).map
        (fun s => s.exp.map Experiment.layers)
      = .ok (some ([((transformData self.features X).length : Int)] ++ self.layers
              ++ [((npUnique y).length : Int)])) := by
  have hbody := @TheanetsClassifier.partialFitBody_none self X y nt tr hexp
  rw [if_pos hin, if_pos hout] at hbody
  have hpf := @partial_fit_ok_of_check self X y nt tr hok
  refine ⟨?_, ?_, ?_⟩
  · rw [hpf, hbody]
    rfl
  · rw [hpf]
    simp only [Except.map]
    have hl := get_params_layer_entries (TheanetsClassifier.partialFitBody self X y nt tr)
      (by rw [hbody]; exact hnp1) (by rw [hbody]; exact hnp2)
    rw [hl.1, hl.2, hbody]
  · rw [hpf]
    simp only [Except.bind]
    have h1in : (TheanetsClassifier.partialFitBody self X y nt tr).input_layer
        = ((transformData self.features X).length : Int) := by rw [hbody]
    have h1out : (TheanetsClassifier.partialFitBody self X y nt tr).output_layer
        = ((npUnique y).length : Int) := by rw [hbody]
    have h1lay : (TheanetsClassifier.partialFitBody self X y nt tr).layers
        = self.layers := by rw [hbody]
    have h1tr : (TheanetsClassifier.partialFitBody self X y nt tr).trainers ≠ [] := by
      rw [hbody]
      cases nt with
      | true => simp
      | false => simpa using htr
    obtain ⟨s2, hfit, -, -, -, -, -, h7⟩ :=
      fit_ok_spec (TheanetsClassifier.partialFitBody self X y nt tr) X2 y2 sw hok2
    obtain ⟨hl, -, -, -⟩ := h7 h1tr
    rw [hfit]
    simp only [Except.map, hl, resolvedLayers]
    rw [if_neg (by rw [h1in]; omega), if_neg (by rw [h1out]; omega),
        h1in, h1out, h1lay]

/-- C10, witnessed: training the sentinel-configured example adapter on the
100×4 table with 3 distinct labels stores sizes 4 and 3, `get_params`
reports them, and a refit on a 3-row table with 2 distinct labels still
builds `[4, 5, 3]`. -/
theorem first_training_overwrites_sentinels_witness :
    (exampleAdapter.partial_fit exampleX exampleY none false []).map
        (fun s => (s.input_layer, s.output_layer))
      = .ok (4, 3)
    ∧ (exampleAdapter.partial_fit exampleX exampleY none false []).map
        (fun s => (pdictLookup s.get_params ("input_layer".toList),
                   pdictLookup s.get_params ("output_layer".toList)))
      = .ok (some (ParamVal.base (PyVal.int 4)), some (ParamVal.base (PyVal.int 3)))
    ∧ ((exampleAdapter.partial_fit exampleX exampleY none false []).bind
          (fun s => s.fit smallX smallY2 none)).map
        (fun s => s.exp.map Experiment.layers)
      = .ok (some [4, 5, 3]) := by
  have h := first_training_overwrites_sentinels exampleAdapter exampleX smallX
    exampleY smallY2 false [] none (by decide) (by decide) (by decide) (by decide)
    (by decide) (by decide) (by decide) (by decide)
  refine ⟨h.1.trans (by decide), h.2.1.trans (by decide), h.2.2.trans (by decide)⟩

end Theanets
